import Mathlib

/-!
Verification of the mkcert trust-store engine (Go sources under truststore/
and main.go) against its natural-language specification.

Strings from the Go program are modelled as `List Char` (`GoStr`); byte
slices holding command output are likewise modelled as `List Char`, and raw
digest bytes as `Fin 256` values.  External processes (certutil, keytool,
security, rm, tee) are modelled as oracles mapping an argv to a combined
output and a success flag; the filesystem probes (`os.Stat`, `pathExists`)
are modelled as boolean oracles on paths.  `filepath.Join a b` is modelled
as `a ++ "/" ++ b`.
-/

/-- Go strings / byte slices, modelled as lists of characters. -/
abbrev GoStr := List Char

/-- Go bytes (`uint8`), used for raw hash digests. -/
abbrev GoByte := Fin 256

/-- `leadMatch hay sub` is true when `sub` matches the head of `hay`
(the inner loop of Go `bytes.Contains`). -/
def leadMatch : GoStr → GoStr → Bool
  | _, [] => true
  | [], _ :: _ => false
  | a :: as, b :: bs => a == b && leadMatch as bs

/-- Go `bytes.Contains hay sub`: `sub` occurs as a contiguous run in `hay`. -/
def hasSub : GoStr → GoStr → Bool
  | [], sub => leadMatch [] sub
  | a :: t, sub => leadMatch (a :: t) sub || hasSub t sub

section NSS

/-- Oracles for NSS profile discovery (`forEachNSSProfile`,
truststore_nss.go lines 229-252): the `HOME` environment variable, the
result of glob-expanding `FirefoxProfiles`, the `os.Stat`-is-a-directory
probe and the `Store.pathExists` probe. -/
structure NSSEnv where
  home : GoStr
  firefoxGlobs : List GoStr
  statIsDir : GoStr → Bool
  pathExists : GoStr → Bool

/-- The fixed NSS database locations (`nssDBs`, truststore_nss.go lines
26-30). -/
def nssDBs (home : GoStr) : List GoStr :=
  [home ++ "/.pki/nssdb".toList,
   home ++ "/snap/chromium/current/.pki/nssdb".toList,
   "/etc/pki/nssdb".toList]

/-- The candidate profile list of `forEachNSSProfile`: the fixed database
locations followed by the glob-expanded Firefox profile directories. -/
def nssCandidates (env : NSSEnv) : List GoStr :=
  nssDBs env.home ++ env.firefoxGlobs

/-- The per-candidate test of `forEachNSSProfile`: an existing directory
with a `cert9.db` marker is addressed `sql:`, otherwise one with a
`cert8.db` marker is addressed `dbm:`, otherwise the candidate is skipped
(truststore_nss.go lines 236-251). -/
def profileAddr (env : NSSEnv) (profile : GoStr) : Option GoStr :=
  if env.statIsDir profile then
    if env.pathExists (profile ++ "/cert9.db".toList) then
      some ("sql:".toList ++ profile)
    else if env.pathExists (profile ++ "/cert8.db".toList) then
      some ("dbm:".toList ++ profile)
    else none
  else none

/-- The loop of `forEachNSSProfile`: runs `f` on each discovered profile
address, aborting with `(0, err)` on the first error and otherwise counting
the discovered profiles. -/
def nssProfileLoop {ε : Type} (env : NSSEnv) (f : GoStr → Option ε) :
    List GoStr → Nat → Nat × Option ε
  | [], found => (found, none)
  | profile :: rest, found =>
    if env.statIsDir profile then
      if env.pathExists (profile ++ "/cert9.db".toList) then
        match f ("sql:".toList ++ profile) with
        | some e => (0, some e)
        | none => nssProfileLoop env f rest (found + 1)
      else if env.pathExists (profile ++ "/cert8.db".toList) then
        match f ("dbm:".toList ++ profile) with
        | some e => (0, some e)
        | none => nssProfileLoop env f rest (found + 1)
      else nssProfileLoop env f rest found
    else nssProfileLoop env f rest found

/-- `Store.forEachNSSProfile` (truststore_nss.go lines 229-252). -/
def forEachNSSProfile {ε : Type} (env : NSSEnv) (f : GoStr → Option ε) :
    Nat × Option ε :=
  nssProfileLoop env f (nssCandidates env) 0

/-- The addresses of the discovered NSS profiles, in discovery order. -/
def nssDiscovered (env : NSSEnv) : List GoStr :=
  (nssCandidates env).filterMap (profileAddr env)

/-- The argv of `certutil -V -d <profile> -u L -n <name>`
(truststore_nss.go line 108). -/
def certutilVerifyArgs (certutilPath uniqueName addr : GoStr) : List GoStr :=
  [certutilPath, "-V".toList, "-d".toList, addr, "-u".toList, "L".toList,
   "-n".toList, uniqueName]

/-- `Store.CheckNSS` (truststore_nss.go lines 103-112): with no certutil it
returns `(false, nil)`; otherwise it runs the verify command on every
discovered profile and returns `count != 0 && err == nil`.  `exec1` is the
`SysFS.Exec` oracle, returning `none` on a zero exit status. -/
def checkNSS (hasCertutil : Bool) (env : NSSEnv)
    (certutilPath uniqueName : GoStr) (exec1 : List GoStr → Option Unit) :
    Bool × Option Unit :=
  if hasCertutil then
    let r := forEachNSSProfile env
      (fun profile => exec1 (certutilVerifyArgs certutilPath uniqueName profile))
    ((r.1 != 0) && r.2.isNone, none)
  else (false, none)

/-- The sentinel errors of the NSS backend (truststore_nss.go lines 17-21). -/
inductive NSSWarning where
  | noNSS
  | noCertutil
  | noNSSDB
  deriving DecidableEq

/-- The error results of `InstallNSS`: a warning wrapping a
`truststore.NSSError`, the bare `UnknownNSS` warning, or a fatal command
error (`fatalCmdErr`). -/
inductive NSSInstallErr where
  | warnNSSError (e : NSSWarning) (certutilInstallHelp nssBrowsers op : GoStr)
  | warnUnknownNSS
  | fatalCmd (cmd out : GoStr)
  deriving DecidableEq

/-- The `-A` argument list built by `InstallNSS` (truststore_nss.go lines
139-144): import with trust flags `C,,` under the CA unique name from the
CA file `CAROOT/<FileName>`. -/
def importArgs (addr caroot fileName uniqueName : GoStr) : List GoStr :=
  ["-A".toList, "-d".toList, addr,
   "-t".toList, "C,,".toList,
   "-n".toList, uniqueName,
   "-i".toList, caroot ++ "/".toList ++ fileName]

/-- `Store.InstallNSS` (truststore_nss.go lines 114-169).  `execCert` is
the `execCertutil` oracle (combined output and success flag) keyed on the
full argv; `exec1` is the plain exec oracle used by the `CheckNSS`
re-check. -/
def installNSS (hasCertutil : Bool) (certutilInstallHelp nssBrowsers : GoStr)
    (env : NSSEnv) (certutilPath caroot fileName uniqueName : GoStr)
    (execCert : List GoStr → GoStr × Bool)
    (exec1 : List GoStr → Option Unit) : Bool × Option NSSInstallErr :=
  if hasCertutil then
    let r := forEachNSSProfile env (fun profile =>
      if (execCert (certutilPath :: importArgs profile caroot fileName uniqueName)).2 then none
      else some (NSSInstallErr.fatalCmd ("certutil -A -d ".toList ++ profile)
        (execCert (certutilPath :: importArgs profile caroot fileName uniqueName)).1))
    match r.2 with
    | some e => (false, some e)
    | none =>
      if r.1 = 0 then
        (false, some (.warnNSSError .noNSSDB certutilInstallHelp nssBrowsers
          "install".toList))
      else if (checkNSS true env certutilPath uniqueName exec1).1 then (true, none)
      else (false, some .warnUnknownNSS)
  else if certutilInstallHelp = [] then
    (false, some (.warnNSSError .noNSS certutilInstallHelp nssBrowsers
      "install".toList))
  else
    (false, some (.warnNSSError .noCertutil certutilInstallHelp nssBrowsers
      "install".toList))

end NSS

section Java

/-- The error results of the Java backend: a fatal command error
(`fatalCmdErr`) or the keytool-missing warning used by the install and
uninstall operations. -/
inductive JavaErr where
  | fatalCmd (cmd out : GoStr)
  | warnNoKeytool (op : GoStr)
  deriving DecidableEq

/-- Go `strings.ToUpper` on a single ASCII character (the fingerprints fed
to it are ASCII hex strings). -/
def toUpperChar (c : Char) : Char :=
  if 'a' ≤ c && c ≤ 'z' then Char.ofNat (c.toNat - 32) else c

/-- The lowercase hex digit table of Go `encoding/hex`. -/
def lowerHexDigit (n : Nat) : Char :=
  "0123456789abcdef".toList.getD n '0'

/-- Go `hex.EncodeToString`: each byte becomes its high then low hex
nibble, in lowercase. -/
def hexEncode (bs : List GoByte) : GoStr :=
  bs.flatMap (fun b => [lowerHexDigit (b.val / 16), lowerHexDigit (b.val % 16)])

/-- The fingerprint computed by the `exists` closure of `CheckJava`
(truststore_java.go lines 79-83): `strings.ToUpper(hex.EncodeToString(digest))`,
where `digest` is the SHA-1 or SHA-256 digest of the certificate's raw DER
bytes (the hashing itself is Go standard-library code and is abstracted as
the digest input). -/
def fingerprintOf (digest : List GoByte) : GoStr :=
  (hexEncode digest).map toUpperChar

/-- The keytool `-list` arguments of `CheckJava` (truststore_java.go lines
85-89). -/
def keytoolListArgs (cacertsPath storePass : GoStr) : List GoStr :=
  ["-list".toList, "-keystore".toList, cacertsPath, "-storepass".toList, storePass]

/-- Result of `CheckJava`, with the list of argvs of the external commands
it executed. -/
structure CheckJavaRes where
  ok : Bool
  err : Option JavaErr
  cmds : List (List GoStr)
  deriving DecidableEq

/-- Go `bytes.Replace(out, []byte(":"), nil, -1)`: drop every colon. -/
def dropColons (out : GoStr) : GoStr :=
  out.filter (fun c => c ≠ ':')

/-- `Store.CheckJava` (truststore_java.go lines 72-103): with no keytool it
returns `(false, nil)` having executed nothing; otherwise it lists the
keystore, and scans the colon-stripped combined output for the uppercase
SHA-1 or SHA-256 fingerprint of the CA certificate's raw bytes.  `exec1`
is the `SysFS.Exec` oracle. -/
def checkJava (hasKeytool : Bool) (keytoolPath cacertsPath storePass : GoStr)
    (sha1fp sha256fp : List GoByte) (exec1 : List GoStr → GoStr × Bool) :
    CheckJavaRes :=
  if hasKeytool then
    if (exec1 (keytoolPath :: keytoolListArgs cacertsPath storePass)).2 then
      ⟨hasSub (dropColons (exec1 (keytoolPath :: keytoolListArgs cacertsPath storePass)).1)
          (fingerprintOf sha1fp) ||
        hasSub (dropColons (exec1 (keytoolPath :: keytoolListArgs cacertsPath storePass)).1)
          (fingerprintOf sha256fp), none,
        [keytoolPath :: keytoolListArgs cacertsPath storePass]⟩
    else
      ⟨false, some (.fatalCmd "keytool -list".toList
          (exec1 (keytoolPath :: keytoolListArgs cacertsPath storePass)).1),
        [keytoolPath :: keytoolListArgs cacertsPath storePass]⟩
  else ⟨false, none, []⟩

/-- Modelled from the spec: the `Java` trust store's install and uninstall
operations surface a keytool-missing warning (`NoKeytoolError`, spec §4.4
"tool absent (`NoKeytoolError`, operation-specific message for install vs
uninstall)"; main.go lines 458-468 renders it per operation).  The `Java`
store implementation carrying this warning is not among the sources, so
only the warning result itself is modelled here. -/
def javaToolMissingWarning (op : GoStr) : Option JavaErr :=
  some (.warnNoKeytool op)

/-- The keytool `-delete` arguments of `UninstallJava` (truststore_java.go
lines 121-126). -/
def deleteArgs (uniqueName cacertsPath storePass : GoStr) : List GoStr :=
  ["-delete".toList, "-alias".toList, uniqueName,
   "-keystore".toList, cacertsPath, "-storepass".toList, storePass]

/-- `Store.UninstallJava` (truststore_java.go lines 120-135): output
containing "does not exist" is a no-op success; any other failure is
fatal.  `execKt` is the `execKeytool` oracle (combined output, success). -/
def uninstallJava (keytoolPath uniqueName cacertsPath storePass : GoStr)
    (execKt : List GoStr → GoStr × Bool) : Bool × Option JavaErr :=
  if hasSub (execKt (keytoolPath :: deleteArgs uniqueName cacertsPath storePass)).1
      "does not exist".toList then (false, none)
  else if (execKt (keytoolPath :: deleteArgs uniqueName cacertsPath storePass)).2 then
    (true, none)
  else
    (false, some (.fatalCmd "keytool -delete".toList
      (execKt (keytoolPath :: deleteArgs uniqueName cacertsPath storePass)).1))

end Java

section Certutil

/-- `Store.execCertutil` (truststore_nss.go lines 221-227): run the
command; when it fails with `SEC_ERROR_READ_ONLY` in its output on a
non-Windows OS, run it once more through `SudoExec`.  `first` is the plain
`Exec` result, `retry` the `SudoExec` result; the second component of the
return value records whether the escalated retry ran. -/
def execCertutil (goos : GoStr) (first retry : GoStr × Bool) :
    (GoStr × Bool) × Bool :=
  if !first.2 && hasSub first.1 "SEC_ERROR_READ_ONLY".toList
      && (goos != "windows".toList) then
    (retry, true)
  else (first, false)

end Certutil

section Platform

/-- Oracles for `Store.InitPlatform` on Linux (truststore_linux.go lines
28-51): the path-existence probe and the package-manager binary probes. -/
structure LinuxEnv where
  pathExists : GoStr → Bool
  binaryApt : Bool
  binaryYum : Bool
  binaryZypper : Bool

/-- The `CertutilInstallHelp` value set by `InitPlatform` (truststore_linux.go
lines 30-36). -/
def linuxCertutilInstallHelp (env : LinuxEnv) : GoStr :=
  if env.binaryApt then "apt install libnss3-tools".toList
  else if env.binaryYum then "yum install nss-tools".toList
  else if env.binaryZypper then "zypper install mozilla-nss-tools".toList
  else []

/-- The `SystemTrustFilename` pattern and `SystemTrustCommand` fixed by
`InitPlatform`.  The Go pattern is a `%s` format string; it is split here
into the directory part before `%s` and the extension after it. -/
structure SystemTrust where
  dir : GoStr
  ext : GoStr
  cmd : List GoStr
  deriving DecidableEq

/-- `Store.InitPlatform` (truststore_linux.go lines 37-50): probe the four
known system CA-anchor directories in order; if none exists neither a
filename pattern nor a refresh command is fixed. -/
def initPlatform (env : LinuxEnv) : Option SystemTrust :=
  if env.pathExists "/etc/pki/ca-trust/source/anchors/".toList then
    some ⟨"/etc/pki/ca-trust/source/anchors/".toList, ".pem".toList,
      ["update-ca-trust".toList, "extract".toList]⟩
  else if env.pathExists "/usr/local/share/ca-certificates/".toList then
    some ⟨"/usr/local/share/ca-certificates/".toList, ".crt".toList,
      ["update-ca-certificates".toList]⟩
  else if env.pathExists "/etc/ca-certificates/trust-source/anchors/".toList then
    some ⟨"/etc/ca-certificates/trust-source/anchors/".toList, ".crt".toList,
      ["trust".toList, "extract-compat".toList]⟩
  else if env.pathExists "/usr/share/pki/trust/anchors".toList then
    some ⟨"/usr/share/pki/trust/anchors/".toList, ".pem".toList,
      ["update-ca-certificates".toList]⟩
  else none

/-- The space-to-underscore sanitization of `systemTrustFilename`
(truststore_linux.go lines 53-55, `strings.Replace(name, " ", "_", -1)`). -/
def sanitizeUnique (s : GoStr) : GoStr :=
  s.map (fun c => if c = ' ' then '_' else c)

/-- `Store.systemTrustFilename`: the anchor path obtained by substituting
the sanitized CA unique name into the `SystemTrustFilename` pattern. -/
def systemTrustFilename (st : SystemTrust) (uniqueName : GoStr) : GoStr :=
  st.dir ++ sanitizeUnique uniqueName ++ st.ext

/-- An observable side effect of the engine: a plain command execution, a
privilege-escalated command execution (`CommandWithSudo` / `SudoExec`), or
a log line. -/
inductive Effect where
  | runCmd (argv : List GoStr)
  | sudoCmd (argv : List GoStr)
  | logMsg (msg : GoStr)
  deriving DecidableEq

/-- Result of the Linux `InstallPlatform`, with its effect trace. -/
structure PlatResult where
  ok : Bool
  fatal : Option GoStr
  effects : List Effect
  deriving DecidableEq

/-- `Store.InstallPlatform` on Linux (truststore_linux.go lines 57-84).
When no anchor directory was found it logs the unsupported-distro warning
naming the manual install path `CAROOT/<RootName>` and returns
`(false, nil)` without running anything; otherwise it reads the root
certificate, writes it through privileged `tee` and runs the refresh
command.  `readCert` is the `ioutil.ReadFile` result and `runSudo` the
`CommandWithSudo(...).CombinedOutput()` oracle. -/
def installPlatformLinux (env : LinuxEnv) (caroot rootName uniqueName : GoStr)
    (readCert : Option GoStr) (runSudo : List GoStr → GoStr × Bool) :
    PlatResult :=
  match initPlatform env with
  | none =>
    { ok := false, fatal := none,
      effects :=
        [.logMsg ("Installing to the system store is not yet supported on this Linux but Firefox and/or Chrome/Chromium will still work.".toList),
         .logMsg ("You can also manually install the root certificate at \"".toList
           ++ (caroot ++ "/".toList ++ rootName) ++ "\".".toList)] }
  | some st =>
    match readCert with
    | none =>
      { ok := false, fatal := some "failed to read root certificate".toList,
        effects := [] }
    | some _ =>
      let teeArgv := ["tee".toList, systemTrustFilename st uniqueName]
      let r1 := runSudo teeArgv
      if r1.2 then
        let r2 := runSudo st.cmd
        if r2.2 then
          { ok := true, fatal := none,
            effects := [.sudoCmd teeArgv, .sudoCmd st.cmd] }
        else
          { ok := false, fatal := some "failed to execute refresh".toList,
            effects := [.sudoCmd teeArgv, .sudoCmd st.cmd] }
      else
        { ok := false, fatal := some "failed to execute tee".toList,
          effects := [.sudoCmd teeArgv] }

end Platform

section Uninstall

/-- `caUniqueName` (main.go lines 479-481): the fixed label followed by
the decimal serial number.  `serial` is `SerialNumber.String()`. -/
def caUniqueName (serial : GoStr) : GoStr :=
  "mkcert development CA ".toList ++ serial

/-- The argv of `certutil -D -d <profile> -n <name>` used by
`UninstallNSS` (truststore_nss.go lines 206-209). -/
def certutilDeleteArgs (certutilPath uniqueName addr : GoStr) : List GoStr :=
  [certutilPath, "-D".toList, "-d".toList, addr, "-n".toList, uniqueName]

/-- The command trace of the `UninstallNSS` profile loop (truststore_nss.go
lines 195-215): per discovered profile, run the `-V` check; on its failure
skip the profile, otherwise run `-D` through `execCertutil` (which may
retry once with sudo) and abort the loop if the delete still fails.
`verifyOk` gives the `-V` exit status per profile address, `delFirst` and
`delRetry` the plain and escalated `-D` results. -/
def uninstallNSSLoop (env : NSSEnv) (certutilPath uniqueName goos : GoStr)
    (verifyOk : GoStr → Bool) (delFirst delRetry : GoStr → GoStr × Bool) :
    List GoStr → List Effect
  | [] => []
  | profile :: rest =>
    match profileAddr env profile with
    | none => uninstallNSSLoop env certutilPath uniqueName goos verifyOk
        delFirst delRetry rest
    | some addr =>
      if verifyOk addr then
        if (execCertutil goos (delFirst addr) (delRetry addr)).1.2 then
          Effect.runCmd (certutilVerifyArgs certutilPath uniqueName addr) ::
            ((Effect.runCmd (certutilDeleteArgs certutilPath uniqueName addr) ::
              (if (execCertutil goos (delFirst addr) (delRetry addr)).2 then
                [Effect.sudoCmd (certutilDeleteArgs certutilPath uniqueName addr)]
              else [])) ++
              uninstallNSSLoop env certutilPath uniqueName goos verifyOk
                delFirst delRetry rest)
        else
          Effect.runCmd (certutilVerifyArgs certutilPath uniqueName addr) ::
            Effect.runCmd (certutilDeleteArgs certutilPath uniqueName addr) ::
              (if (execCertutil goos (delFirst addr) (delRetry addr)).2 then
                [Effect.sudoCmd (certutilDeleteArgs certutilPath uniqueName addr)]
              else [])
      else
        Effect.runCmd (certutilVerifyArgs certutilPath uniqueName addr) ::
          uninstallNSSLoop env certutilPath uniqueName goos verifyOk
            delFirst delRetry rest

/-- The command trace of `Store.UninstallNSS` (truststore_nss.go lines
171-217); with no certutil only a warning is returned and nothing runs. -/
def uninstallNSSEffects (hasCertutil : Bool) (env : NSSEnv)
    (certutilPath uniqueName goos : GoStr) (verifyOk : GoStr → Bool)
    (delFirst delRetry : GoStr → GoStr × Bool) : List Effect :=
  if hasCertutil then
    uninstallNSSLoop env certutilPath uniqueName goos verifyOk delFirst
      delRetry (nssCandidates env)
  else []

/-- The command trace of `Store.UninstallJava` via `execKeytool`
(truststore_java.go lines 120-149): the `-delete` command, re-run once with
sudo when it fails with `java.io.FileNotFoundException` on a non-Windows
OS. -/
def uninstallJavaEffects (keytoolPath uniqueName cacertsPath storePass goos : GoStr)
    (first : GoStr × Bool) : List Effect :=
  Effect.runCmd (keytoolPath :: deleteArgs uniqueName cacertsPath storePass) ::
    (if !first.2 && hasSub first.1 "java.io.FileNotFoundException".toList
        && (goos != "windows".toList) then
      [Effect.sudoCmd (keytoolPath :: deleteArgs uniqueName cacertsPath storePass)]
    else [])

/-- The command trace of `Store.UninstallPlatform` on Linux
(truststore_linux.go lines 87-113): privileged `rm -f` of the
current-convention anchor file, of the legacy `mkcert-rootCA` file when it
exists, then the refresh command; with no anchor directory nothing runs. -/
def uninstallPlatformLinuxEffects (env : LinuxEnv) (uniqueName : GoStr)
    (rm1Ok : Bool) (legacyExists rmLegacyOk : Bool) : List Effect :=
  match initPlatform env with
  | none => []
  | some st =>
    if rm1Ok then
      if legacyExists && !rmLegacyOk then
        Effect.sudoCmd ["rm".toList, "-f".toList, systemTrustFilename st uniqueName] ::
          (if legacyExists then
            [Effect.sudoCmd ["rm".toList, "-f".toList,
              st.dir ++ "mkcert-rootCA".toList ++ st.ext]]
          else [])
      else
        Effect.sudoCmd ["rm".toList, "-f".toList, systemTrustFilename st uniqueName] ::
          (if legacyExists then
            [Effect.sudoCmd ["rm".toList, "-f".toList,
              st.dir ++ "mkcert-rootCA".toList ++ st.ext]]
          else []) ++ [Effect.sudoCmd st.cmd]
    else [Effect.sudoCmd ["rm".toList, "-f".toList, systemTrustFilename st uniqueName]]

/-- The command trace of `Store.UninstallPlatform` on Darwin
(truststore_darwin.go lines 134-143): a privileged
`security remove-trusted-cert -d CAROOT/<FileName>`. -/
def uninstallPlatformDarwinEffects (caroot fileName : GoStr) : List Effect :=
  [Effect.sudoCmd ["security".toList, "remove-trusted-cert".toList,
    "-d".toList, caroot ++ "/".toList ++ fileName]]

/-- The configuration of one `mkcert -uninstall` run: which stores the
`TRUST_STORES` allow-list enables, the memoized backend discovery state,
and the external-command oracles. -/
structure UninstallCfg where
  nssEnabled : Bool
  javaEnabled : Bool
  systemEnabled : Bool
  nssAvailable : Bool
  hasCertutil : Bool
  hasJava : Bool
  goos : GoStr
  nssEnv : NSSEnv
  linuxEnv : LinuxEnv
  caroot : GoStr
  certutilPath : GoStr
  keytoolPath : GoStr
  cacertsPath : GoStr
  storePass : GoStr
  verifyOk : GoStr → Bool
  delFirst : GoStr → GoStr × Bool
  delRetry : GoStr → GoStr × Bool
  javaFirst : GoStr × Bool
  rm1Ok : Bool
  legacyExists : Bool
  rmLegacyOk : Bool

/-- The command trace of `mkcert.uninstall` (main.go lines 358-373): the
NSS uninstall when the `nss` store is enabled and NSS is available, then
the Java uninstall when the `java` store is enabled and a `JAVA_HOME` is
configured, then the platform uninstall when the `system` store is
enabled (Linux or Darwin strategy according to `GOOS`).  The root
certificate file name is the constant `rootCA.pem` (main.go line 199). -/
def uninstallEffects (cfg : UninstallCfg) (uniqueName : GoStr) : List Effect :=
  (if cfg.nssEnabled && cfg.nssAvailable then
    uninstallNSSEffects cfg.hasCertutil cfg.nssEnv cfg.certutilPath uniqueName
      cfg.goos cfg.verifyOk cfg.delFirst cfg.delRetry
  else []) ++
  (if cfg.javaEnabled && cfg.hasJava then
    uninstallJavaEffects cfg.keytoolPath uniqueName cfg.cacertsPath
      cfg.storePass cfg.goos cfg.javaFirst
  else []) ++
  (if cfg.systemEnabled then
    if cfg.goos = "darwin".toList then
      uninstallPlatformDarwinEffects cfg.caroot "rootCA.pem".toList
    else
      uninstallPlatformLinuxEffects cfg.linuxEnv uniqueName cfg.rm1Ok
        cfg.legacyExists cfg.rmLegacyOk
  else [])

/-- The file removed by an argv, when it is a `rm -f <path>` command. -/
def rmArgvTarget : List GoStr → Option GoStr
  | [a, b, p] =>
    if a = "rm".toList then (if b = "-f".toList then some p else none)
    else none
  | _ => none

/-- The file removed by an effect, if any. -/
def rmTarget : Effect → Option GoStr
  | .runCmd argv => rmArgvTarget argv
  | .sudoCmd argv => rmArgvTarget argv
  | .logMsg _ => none

/-- All paths removed by `rm -f` commands in an effect trace. -/
def removedPaths (effs : List Effect) : List GoStr :=
  effs.filterMap rmTarget

end Uninstall

section Sudo

/-- An `os/exec.Cmd` as far as the engine observes it: the argv (whose
head is the resolved binary path), and the environment, working directory
and standard input fields. -/
structure GoCmd where
  argv : List GoStr
  env : Option (List GoStr)
  dir : GoStr
  stdin : Option GoStr
  deriving DecidableEq

/-- An execution error: a plain command failure carrying its message, or
one wrapped by the one-time sudo-missing warning (`warnErr` in
`rootFS.SudoExec`), carrying the wrapped error's message if any. -/
inductive ExecErr where
  | cmdFailed (msg : GoStr)
  | noSudoWarning (inner : Option GoStr)
  deriving DecidableEq

/-- The `rootFS` command-execution port: whether the current user is root
(`user.Current().Uid == "0"`), whether `LookPath("sudo")` succeeds, the
path resolver used by `Command`, and the `Exec` oracle split into combined
output and error message. -/
structure SudoFS where
  isRoot : Bool
  hasSudo : Bool
  lookPath : GoStr → GoStr
  execOut : GoCmd → GoStr
  execErr : GoCmd → Option GoStr

/-- Result of `SudoExec`: the combined output and error, the command that
was actually executed, and the state of the one-time warning guard after
the call. -/
structure SudoRes where
  out : GoStr
  err : Option ExecErr
  ran : GoCmd
  warnedAfter : Bool
  deriving DecidableEq

/-- `rootFS.SudoExec` (platform part of the sources): as root it is
exactly `Exec`; without sudo it still runs `Exec` and wraps the error with
a warning guarded by `sudoWarningOnce`; otherwise it wraps the command
with `sudo --prompt=Sudo password: --`, forwarding `Env`, `Dir` and
`Stdin`, and executes the wrapper.  `warnedBefore` is the state of the
`sync.Once` guard. -/
def sudoExec (fs : SudoFS) (warnedBefore : Bool) (cmd : GoCmd) : SudoRes :=
  if fs.isRoot then
    { out := fs.execOut cmd, err := (fs.execErr cmd).map .cmdFailed, ran := cmd,
      warnedAfter := warnedBefore }
  else if fs.hasSudo then
    let wrapped : GoCmd :=
      { argv := fs.lookPath "sudo".toList :: "--prompt=Sudo password:".toList
          :: "--".toList :: cmd.argv,
        env := cmd.env, dir := cmd.dir, stdin := cmd.stdin }
    { out := fs.execOut wrapped, err := (fs.execErr wrapped).map .cmdFailed,
      ran := wrapped, warnedAfter := warnedBefore }
  else
    { out := fs.execOut cmd,
      err := if warnedBefore then (fs.execErr cmd).map .cmdFailed
        else some (.noSudoWarning (fs.execErr cmd)),
      ran := cmd, warnedAfter := true }

end Sudo

section Names

/-- The classification oracles of the name-validation loop (main.go lines
276-294), abstracting the Go standard library: `net.ParseIP` success,
`mail.ParseAddress` returning the parsed address, `url.Parse` returning
`(Scheme, Host)` on success, and `idna.ToASCII`. -/
structure NameOracle where
  parseIP : GoStr → Bool
  parseAddr : GoStr → Option GoStr
  parseURL : GoStr → Option (GoStr × GoStr)
  idnaToASCII : GoStr → Option GoStr

/-- How the loop disposes of one requested name. -/
inductive NameRes where
  | ipName
  | emailName
  | uriName
  | hostName (punycode : GoStr)
  | invalid (msg : GoStr)
  deriving DecidableEq

/-- The fatal message of main.go lines 288 and 292, naming the rejected
input (the `%q` quoting is rendered as plain double quotes). -/
def invalidNameMsg (name : GoStr) : GoStr :=
  "ERROR: \"".toList ++ name ++ "\" is not a valid hostname, IP, URL or email".toList

/-- A character matched by `[0-9a-z_-]` under `(?i)`. -/
def isHostChar (c : Char) : Bool :=
  ('0' ≤ c && c ≤ '9') || ('a' ≤ c && c ≤ 'z') || ('A' ≤ c && c ≤ 'Z')
    || c == '_' || c == '-'

/-- A character matched by `[0-9a-z._-]` under `(?i)`. -/
def isHostDotChar (c : Char) : Bool :=
  isHostChar c || c == '.'

/-- The suffix `([0-9a-z._-]*[0-9a-z_-])?` of the hostname regexp: empty,
or interior dot-class characters ending in a plain-class character. -/
def hostTail : GoStr → Bool
  | [] => true
  | [c] => isHostChar c
  | c :: rest => isHostDotChar c && hostTail rest

/-- `hostnameRegexp` of main.go line 275:
`(?i)^(\*\.)?[0-9a-z_-]([0-9a-z._-]*[0-9a-z_-])?$`. -/
def hostnameRegexpMatch (s : GoStr) : Bool :=
  let rest := if s.take 2 = ['*', '.'] then s.drop 2 else s
  match rest with
  | [] => false
  | c :: cs => isHostChar c && hostTail cs

/-- The name-validation step of `mkcert.Run` for one requested name
(main.go lines 276-294): literal IPs, emails equal to their own parsed
address, and URIs with scheme and host are accepted as-is; everything else
is converted with `idna.ToASCII` and matched against `hostnameRegexp`; a
conversion error or a failed match is the fatal invalid-name error. -/
def classifyName (o : NameOracle) (name : GoStr) : NameRes :=
  if o.parseIP name then .ipName
  else if o.parseAddr name = some name then .emailName
  else if (match o.parseURL name with
    | some su => decide (su.1 ≠ [] ∧ su.2 ≠ [])
    | none => false) then .uriName
  else match o.idnaToASCII name with
    | none => .invalid (invalidNameMsg name)
    | some punycode =>
      if hostnameRegexpMatch punycode then .hostName punycode
      else .invalid (invalidNameMsg name)

end Names

section WitnessConfigurations

/-- A discovery environment in which every candidate path is an existing
directory and every marker file exists (so all three fixed database
locations are discovered with the `sql:` prefix). -/
def nssEnvAll : NSSEnv := ⟨[], [], fun _ => true, fun _ => true⟩

/-- A discovery environment in which no candidate is a directory (zero
profiles discovered). -/
def nssEnvNone : NSSEnv := ⟨[], [], fun _ => false, fun _ => false⟩

/-- An exec oracle under which only the verify command for the first fixed
database location succeeds. -/
def execFirstOnly : List GoStr → Option Unit := fun argv =>
  if argv = certutilVerifyArgs "certutil".toList (caUniqueName "1".toList)
      ("sql:".toList ++ "/.pki/nssdb".toList) then none
  else some ()

/-- A Linux environment in which no system CA-anchor directory exists. -/
def linuxEnvNone : LinuxEnv := ⟨fun _ => false, false, false, false⟩

/-- A Linux environment in which the first system CA-anchor directory
exists. -/
def linuxEnvCaTrust : LinuxEnv :=
  ⟨fun p => p = "/etc/pki/ca-trust/source/anchors/".toList, true, false, false⟩

/-- A fully enabled uninstall configuration on Linux with the first anchor
directory present, all three NSS databases discovered, and a legacy anchor
file present. -/
def cfgW : UninstallCfg :=
  ⟨true, true, true, true, true, true, "linux".toList, nssEnvAll,
    linuxEnvCaTrust, "/root/.local/share/mkcert".toList, "certutil".toList,
    "keytool".toList, "cacerts".toList, "changeit".toList,
    fun _ => true, fun _ => ([], true), fun _ => ([], true), ([], true),
    true, true, true⟩

/-- True for log effects, false for command executions. -/
def isLogEffect : Effect → Bool
  | .logMsg _ => true
  | .runCmd _ => false
  | .sudoCmd _ => false

/-- A command-execution port running as root. -/
def fsRoot : SudoFS :=
  ⟨true, false, fun _ => "/usr/bin/sudo".toList, fun _ => "out".toList, fun _ => none⟩

/-- A non-root command-execution port without sudo on the PATH. -/
def fsNoSudo : SudoFS :=
  ⟨false, false, fun _ => [], fun _ => "out".toList, fun _ => none⟩

/-- A non-root command-execution port with sudo available. -/
def fsWithSudo : SudoFS :=
  ⟨false, true, fun _ => "/usr/bin/sudo".toList, fun _ => "out".toList, fun _ => none⟩

/-- A concrete command for the sudo witnesses. -/
def cmdTee : GoCmd :=
  ⟨["tee".toList, "/etc/x".toList], some ["A=1".toList], "/tmp".toList,
    some "data".toList⟩

/-- Oracles matching the Go standard library on literal IP inputs:
`net.ParseIP` succeeds. -/
def ipOracle : NameOracle :=
  ⟨fun _ => true, fun _ => none, fun _ => none, fun _ => none⟩

/-- Oracles matching the Go standard library on plain email inputs:
`mail.ParseAddress` returns the input as the parsed address. -/
def emailOracle : NameOracle :=
  ⟨fun _ => false, fun n => some n, fun _ => none, fun _ => none⟩

/-- Oracles matching the Go standard library on absolute URIs:
`url.Parse` yields a scheme and a host. -/
def uriOracle : NameOracle :=
  ⟨fun _ => false, fun _ => none,
    fun _ => some ("https".toList, "example.com".toList), fun _ => none⟩

/-- Oracles matching the Go standard library on bare hostname inputs such
as `example.org` or `!`: no IP, no email, `url.Parse` succeeds with empty
scheme and host, and `idna.ToASCII` is the identity. -/
def hostOracle : NameOracle :=
  ⟨fun _ => false, fun _ => none, fun _ => some ([], []), fun n => some n⟩

end WitnessConfigurations

section HelperLemmas

theorem nssProfileLoop_cons {ε : Type} (env : NSSEnv) (f : GoStr → Option ε)
    (p : GoStr) (ps : List GoStr) (found : Nat) :
    nssProfileLoop env f (p :: ps) found =
      match profileAddr env p with
      | none => nssProfileLoop env f ps found
      | some a =>
        match f a with
        | some e => (0, some e)
        | none => nssProfileLoop env f ps (found + 1) := by
  conv_lhs => rw [nssProfileLoop]
  unfold profileAddr
  by_cases h1 : env.statIsDir p
  · by_cases h2 : env.pathExists (p ++ "/cert9.db".toList)
    · simp only [h1, h2, if_true]
    · by_cases h3 : env.pathExists (p ++ "/cert8.db".toList) <;>
        simp only [h1, h2, h3, if_true, Bool.false_eq_true, if_false]
  · simp only [h1, Bool.false_eq_true, if_false]

theorem nssProfileLoop_all_none {ε : Type} (env : NSSEnv) (f : GoStr → Option ε) :
    ∀ (ps : List GoStr) (found : Nat),
      (∀ a ∈ ps.filterMap (profileAddr env), f a = none) →
      nssProfileLoop env f ps found =
        (found + (ps.filterMap (profileAddr env)).length, none) := by
  intro ps
  induction ps with
  | nil => intro found _; simp [nssProfileLoop]
  | cons p ps ih =>
    intro found hall
    rw [nssProfileLoop_cons]
    cases hpa : profileAddr env p with
    | none =>
      simp only [List.filterMap_cons, hpa] at hall ⊢
      exact ih found hall
    | some a =>
      simp only [List.filterMap_cons, hpa] at hall ⊢
      have ha : f a = none := hall a (List.mem_cons_self a _)
      have hrest : ∀ b ∈ ps.filterMap (profileAddr env), f b = none :=
        fun b hb => hall b (List.mem_cons_of_mem a hb)
      rw [ha]
      rw [ih (found + 1) hrest]
      have harith : found + 1 + (ps.filterMap (profileAddr env)).length =
          found + ((ps.filterMap (profileAddr env)).length + 1) := by omega
      simp [List.length_cons, harith]

theorem nssProfileLoop_not_all_none {ε : Type} (env : NSSEnv) (f : GoStr → Option ε) :
    ∀ (ps : List GoStr) (found : Nat),
      ¬ (∀ a ∈ ps.filterMap (profileAddr env), f a = none) →
      ∃ e, nssProfileLoop env f ps found = (0, some e) := by
  intro ps
  induction ps with
  | nil => intro found h; exact absurd (by simp) h
  | cons p ps ih =>
    intro found h
    rw [nssProfileLoop_cons]
    cases hpa : profileAddr env p with
    | none =>
      simp only [List.filterMap_cons, hpa] at h
      exact ih found h
    | some a =>
      simp only [List.filterMap_cons, hpa] at h ⊢
      cases hf : f a with
      | some e => exact ⟨e, rfl⟩
      | none =>
        have hrest : ¬ (∀ b ∈ ps.filterMap (profileAddr env), f b = none) := by
          intro hr
          exact h (by
            intro b hb
            rcases List.mem_cons.mp hb with hb | hb
            · exact hb ▸ hf
            · exact hr b hb)
        exact ih (found + 1) hrest

theorem leadMatch_self_append (n y : GoStr) : leadMatch (n ++ y) n = true := by
  induction n with
  | nil => cases y <;> simp [leadMatch]
  | cons c cs ih => simp [leadMatch, ih]

theorem hasSub_of_leadMatch (hay sub : GoStr) (h : leadMatch hay sub = true) :
    hasSub hay sub = true := by
  cases hay with
  | nil => simpa [hasSub] using h
  | cons a t => simp [hasSub, h]

theorem hasSub_parts (x n y : GoStr) : hasSub (x ++ n ++ y) n = true := by
  induction x with
  | nil =>
    simp only [List.nil_append]
    exact hasSub_of_leadMatch (n ++ y) n (leadMatch_self_append n y)
  | cons c cs ih =>
    rw [List.cons_append, List.cons_append]
    simp only [hasSub, Bool.or_eq_true]
    exact Or.inr ih

theorem append_ne_append_of_no_slash (l₁ b l₂ s : List Char)
    (hb : ('/' : Char) ∉ b) (hs : ('/' : Char) ∈ s)
    (hlen : s.length ≤ b.length) : l₁ ++ b ≠ l₂ ++ s := by
  intro h
  rcases List.append_eq_append_iff.mp h with ⟨a', _, hb2⟩ | ⟨c', _, hs2⟩
  · exact hb (hb2 ▸ List.mem_append_right a' hs)
  · have hc : c' = [] := by
      have hlen2 := congrArg List.length hs2
      simp only [List.length_append] at hlen2
      have hz : c'.length = 0 := by omega
      exact List.length_eq_zero.mp hz
    rw [hc, List.nil_append] at hs2
    exact hb (hs2 ▸ hs)

theorem sanitizeUnique_no_slash (s : GoStr) (h : ('/' : Char) ∉ s) :
    ('/' : Char) ∉ sanitizeUnique s := by
  intro hmem
  rcases List.mem_map.mp hmem with ⟨c, hc, hfc⟩
  by_cases hsp : c = ' '
  · simp [hsp] at hfc
  · simp [hsp] at hfc
    exact h (hfc ▸ hc)

theorem initPlatform_ext_facts (env : LinuxEnv) (st : SystemTrust)
    (h : initPlatform env = some st) :
    ('/' : Char) ∉ st.ext ∧ st.ext.length = 4 ∧ rmArgvTarget st.cmd = none := by
  unfold initPlatform at h
  split at h
  · cases h; exact ⟨by decide, by decide, by decide⟩
  · split at h
    · cases h; exact ⟨by decide, by decide, by decide⟩
    · split at h
      · cases h; exact ⟨by decide, by decide, by decide⟩
      · split at h
        · cases h; exact ⟨by decide, by decide, by decide⟩
        · cases h

theorem forEachNSSProfile_all_none {ε : Type} (env : NSSEnv) (f : GoStr → Option ε)
    (h : ∀ a ∈ nssDiscovered env, f a = none) :
    forEachNSSProfile env f = ((nssDiscovered env).length, none) := by
  have hl := nssProfileLoop_all_none env f (nssCandidates env) 0 h
  simpa using hl

theorem forEachNSSProfile_not_all_none {ε : Type} (env : NSSEnv) (f : GoStr → Option ε)
    (h : ¬ ∀ a ∈ nssDiscovered env, f a = none) :
    ∃ e, forEachNSSProfile env f = (0, some e) :=
  nssProfileLoop_not_all_none env f (nssCandidates env) 0 h

end HelperLemmas

section ClaimsNSS

/-- C1 (counterexample): the claim "CheckNSS returns true exactly when at
least one discovered NSS profile reports the CA as present" fails on a
concrete environment in which the three fixed database locations are all
discovered and only the first profile's verify command succeeds: at least
one profile reports the CA as present, yet `CheckNSS` returns false,
because the profile loop aborts with a zero count at the first failing
profile. -/
theorem checkNSS_atLeastOne_counterexample :
    ¬ (((checkNSS true nssEnvAll "certutil".toList (caUniqueName "1".toList)
        execFirstOnly).1 = true) ↔
      ∃ a ∈ nssDiscovered nssEnvAll,
        execFirstOnly (certutilVerifyArgs "certutil".toList
          (caUniqueName "1".toList) a) = none) := by
  decide

/-- C1 (amended): `CheckNSS` returns true exactly when at least one NSS
profile was discovered and the certutil verify command succeeded on every
discovered profile; when certutil was not discovered it returns
`(false, nil)`, and its error result is always nil. -/
theorem checkNSS_requires_all_profiles (hasCertutil : Bool) (env : NSSEnv)
    (cp un : GoStr) (exec1 : List GoStr → Option Unit) :
    checkNSS hasCertutil env cp un exec1 =
      ((hasCertutil && !(nssDiscovered env).isEmpty &&
        (nssDiscovered env).all
          (fun a => (exec1 (certutilVerifyArgs cp un a)).isNone)), none) := by
  cases hasCertutil with
  | false => simp [checkNSS]
  | true =>
    by_cases hall : ∀ a ∈ nssDiscovered env,
        exec1 (certutilVerifyArgs cp un a) = none
    · have hfe := forEachNSSProfile_all_none env
        (fun profile => exec1 (certutilVerifyArgs cp un profile)) hall
      have hall2 : ((nssDiscovered env).all
          (fun a => (exec1 (certutilVerifyArgs cp un a)).isNone)) = true :=
        List.all_eq_true.mpr (fun a ha => by rw [hall a ha]; rfl)
      simp only [checkNSS, hfe, if_true, hall2]
      cases hd : nssDiscovered env <;> simp [hd]
    · obtain ⟨e, hfe⟩ := forEachNSSProfile_not_all_none env
        (fun profile => exec1 (certutilVerifyArgs cp un profile)) hall
      have hall2 : ((nssDiscovered env).all
          (fun a => (exec1 (certutilVerifyArgs cp un a)).isNone)) = false := by
        cases hA : (nssDiscovered env).all
            (fun a => (exec1 (certutilVerifyArgs cp un a)).isNone) with
        | false => rfl
        | true =>
          exact absurd (fun a ha =>
            Option.isNone_iff_eq_none.mp (List.all_eq_true.mp hA a ha)) hall
      simp [checkNSS, hfe, hall2]

/-- C2 (confirmed): with certutil present, `InstallNSS` imports the CA
file into every discovered profile with trust flags `C,,` under the CA's
unique name (the per-profile argv is `certutilPath :: importArgs ...`);
when zero profiles were discovered it returns the `NoNSSDB` warning,
distinct from the `NoCertutil` and `NoNSS` tool-missing warnings; and when
at least one profile was discovered and every import succeeded, it re-runs
`CheckNSS` and returns the `UnknownNSS` verification warning instead of
success exactly when that check still reports false. -/
theorem installNSS_zero_db_and_verify (help browsers : GoStr) (env : NSSEnv)
    (cp caroot fn un : GoStr) (execCert : List GoStr → GoStr × Bool)
    (exec1 : List GoStr → Option Unit) :
    (nssDiscovered env = [] →
      installNSS true help browsers env cp caroot fn un execCert exec1 =
        (false, some (.warnNSSError .noNSSDB help browsers "install".toList)) ∧
      (∀ h b o, NSSInstallErr.warnNSSError .noNSSDB help browsers "install".toList ≠
          NSSInstallErr.warnNSSError .noCertutil h b o ∧
        NSSInstallErr.warnNSSError .noNSSDB help browsers "install".toList ≠
          NSSInstallErr.warnNSSError .noNSS h b o)) ∧
    ((∀ a ∈ nssDiscovered env, (execCert (cp :: importArgs a caroot fn un)).2 = true) →
      nssDiscovered env ≠ [] →
      ((checkNSS true env cp un exec1).1 = false →
        installNSS true help browsers env cp caroot fn un execCert exec1 =
          (false, some .warnUnknownNSS)) ∧
      ((checkNSS true env cp un exec1).1 = true →
        installNSS true help browsers env cp caroot fn un execCert exec1 =
          (true, none))) := by
  constructor
  · intro hempty
    have hfe := forEachNSSProfile_all_none env
      (fun profile =>
        if (execCert (cp :: importArgs profile caroot fn un)).2 then none
        else some (NSSInstallErr.fatalCmd ("certutil -A -d ".toList ++ profile)
          (execCert (cp :: importArgs profile caroot fn un)).1))
      (by simp [hempty])
    constructor
    · unfold installNSS
      rw [hfe]
      simp [hempty]
    · intro h b o
      constructor <;> simp
  · intro himp hne
    have hfe := forEachNSSProfile_all_none env
      (fun profile =>
        if (execCert (cp :: importArgs profile caroot fn un)).2 then none
        else some (NSSInstallErr.fatalCmd ("certutil -A -d ".toList ++ profile)
          (execCert (cp :: importArgs profile caroot fn un)).1))
      (fun a ha => by simp [himp a ha])
    have hlen : (nssDiscovered env).length ≠ 0 := by
      intro h0
      exact hne (List.length_eq_zero.mp h0)
    constructor
    · intro hc
      unfold installNSS
      rw [hfe]
      simp [hlen, hc]
    · intro hc
      unfold installNSS
      rw [hfe]
      simp [hlen, hc]

/-- C2 (witness): the zero-profile branch at a concrete environment with
no discovered database, and the verification branches at an environment
with three discovered profiles, all imports succeeding, under a failing
and a succeeding re-check. -/
theorem installNSS_zero_db_and_verify_witness :
    (installNSS true "apt install libnss3-tools".toList "Firefox".toList
      nssEnvNone "certutil".toList "/root".toList "rootCA.pem".toList
      (caUniqueName "1".toList) (fun _ => ([], true)) (fun _ => none) =
      (false, some (.warnNSSError .noNSSDB "apt install libnss3-tools".toList
        "Firefox".toList "install".toList))) ∧
    (installNSS true "apt install libnss3-tools".toList "Firefox".toList
      nssEnvAll "certutil".toList "/root".toList "rootCA.pem".toList
      (caUniqueName "1".toList) (fun _ => ([], true)) (fun _ => some ()) =
      (false, some .warnUnknownNSS)) ∧
    (installNSS true "apt install libnss3-tools".toList "Firefox".toList
      nssEnvAll "certutil".toList "/root".toList "rootCA.pem".toList
      (caUniqueName "1".toList) (fun _ => ([], true)) (fun _ => none) =
      (true, none)) := by
  refine ⟨?_, ?_, ?_⟩
  · exact ((installNSS_zero_db_and_verify _ _ nssEnvNone _ _ _ _ _ _).1
      (by decide)).1
  · exact ((installNSS_zero_db_and_verify _ _ nssEnvAll _ _ _ _ _ _).2
      (by decide) (by decide)).1 (by decide)
  · exact ((installNSS_zero_db_and_verify _ _ nssEnvAll _ _ _ _ _ _).2
      (by decide) (by decide)).2 (by decide)

/-- C10 (confirmed): during NSS profile discovery a candidate is counted
only when it is an existing directory containing `cert9.db` or `cert8.db`;
with `cert9.db` present the profile is addressed with the `sql:` prefix
(taking precedence over `cert8.db`), otherwise `cert8.db` yields the
`dbm:` prefix; candidates with neither marker, or that are not existing
directories, yield no profile, and the found count of
`forEachNSSProfile` is exactly the number of discovered profiles, with no
error, when the callback succeeds everywhere. -/
theorem nss_profile_discovery (env : NSSEnv) (f : GoStr → Option Unit) (p : GoStr) :
    (env.statIsDir p = true → env.pathExists (p ++ "/cert9.db".toList) = true →
      profileAddr env p = some ("sql:".toList ++ p)) ∧
    (env.statIsDir p = true → env.pathExists (p ++ "/cert9.db".toList) = false →
      env.pathExists (p ++ "/cert8.db".toList) = true →
      profileAddr env p = some ("dbm:".toList ++ p)) ∧
    (env.statIsDir p = false → profileAddr env p = none) ∧
    (env.pathExists (p ++ "/cert9.db".toList) = false →
      env.pathExists (p ++ "/cert8.db".toList) = false →
      profileAddr env p = none) ∧
    ((∀ a ∈ nssDiscovered env, f a = none) →
      forEachNSSProfile env f = ((nssDiscovered env).length, none)) := by
  refine ⟨?_, ?_, ?_, ?_, ?_⟩
  · intro h1 h2
    unfold profileAddr
    rw [if_pos h1, if_pos h2]
  · intro h1 h2 h3
    unfold profileAddr
    rw [if_pos h1, if_neg (by rw [h2]; exact Bool.false_ne_true), if_pos h3]
  · intro h1
    unfold profileAddr
    rw [if_neg (by rw [h1]; exact Bool.false_ne_true)]
  · intro h2 h3
    unfold profileAddr
    by_cases h1 : env.statIsDir p
    · rw [if_pos h1, if_neg (by rw [h2]; exact Bool.false_ne_true),
        if_neg (by rw [h3]; exact Bool.false_ne_true)]
    · rw [if_neg h1]
  · exact forEachNSSProfile_all_none env f

/-- C10 (witness): the four discovery cases and the count at concrete
environments. -/
theorem nss_profile_discovery_witness :
    (profileAddr nssEnvAll "/x".toList = some ("sql:".toList ++ "/x".toList)) ∧
    (profileAddr nssEnvNone "/x".toList = none) ∧
    (forEachNSSProfile nssEnvAll (fun _ => (none : Option Unit)) =
      ((nssDiscovered nssEnvAll).length, none)) ∧
    (forEachNSSProfile nssEnvNone (fun _ => (none : Option Unit)) =
      ((nssDiscovered nssEnvNone).length, none)) := by
  refine ⟨?_, ?_, ?_, ?_⟩
  · exact (nss_profile_discovery nssEnvAll (fun _ => none) "/x".toList).1
      (by decide) (by decide)
  · exact (nss_profile_discovery nssEnvNone (fun _ => none) "/x".toList).2.2.1
      (by decide)
  · exact (nss_profile_discovery nssEnvAll (fun _ => none) "/x".toList).2.2.2.2
      (by simp)
  · exact (nss_profile_discovery nssEnvNone (fun _ => none) "/x".toList).2.2.2.2
      (by simp)

end ClaimsNSS

section ClaimsJava

/-- C3 (confirmed): with keytool present and the list command succeeding,
`CheckJava` returns true exactly when the colon-stripped combined output
contains the uppercase hex SHA-1 fingerprint or the uppercase hex SHA-256
fingerprint of the certificate's raw bytes; in particular an output
containing only the SHA-256 fingerprint is still detected, and the
fingerprint encoding is uppercase hex. -/
theorem checkJava_fingerprint_scan :
    (∀ (kp cacerts sp : GoStr) (d1 d256 : List GoByte)
      (exec1 : List GoStr → GoStr × Bool) (out : GoStr),
      exec1 (kp :: keytoolListArgs cacerts sp) = (out, true) →
      ((checkJava true kp cacerts sp d1 d256 exec1).ok = true ↔
        (hasSub (dropColons out) (fingerprintOf d1) = true ∨
          hasSub (dropColons out) (fingerprintOf d256) = true))) ∧
    ((checkJava true "keytool".toList "cacerts".toList "changeit".toList
        [(1 : GoByte)] [(0xab : GoByte), (0xcd : GoByte)]
        (fun _ => (":AB:CD:".toList, true))).ok = true ∧
      hasSub (dropColons ":AB:CD:".toList) (fingerprintOf [(1 : GoByte)]) = false) ∧
    fingerprintOf [(0xab : GoByte), (0xcd : GoByte)] = "ABCD".toList := by
  refine ⟨?_, by decide, by decide⟩
  intro kp cacerts sp d1 d256 exec1 out hexec
  unfold checkJava
  rw [hexec]
  simp

/-- C3 (witness): the scan equivalence applied at a concrete keystore
listing containing only the SHA-256 fingerprint. -/
theorem checkJava_fingerprint_scan_witness :
    (checkJava true "keytool".toList "cacerts".toList "changeit".toList
      [(1 : GoByte)] [(0xab : GoByte), (0xcd : GoByte)]
      (fun _ => (":AB:CD:".toList, true))).ok = true ↔
    (hasSub (dropColons ":AB:CD:".toList) (fingerprintOf [(1 : GoByte)]) = true ∨
      hasSub (dropColons ":AB:CD:".toList)
        (fingerprintOf [(0xab : GoByte), (0xcd : GoByte)]) = true) :=
  checkJava_fingerprint_scan.1 "keytool".toList "cacerts".toList
    "changeit".toList [(1 : GoByte)] [(0xab : GoByte), (0xcd : GoByte)]
    (fun _ => (":AB:CD:".toList, true)) ":AB:CD:".toList rfl

/-- C4 (confirmed): a keytool delete whose combined output contains "does
not exist" is a no-op success `(false, nil)`; and a certutil command that
fails with `SEC_ERROR_READ_ONLY` in its output on a non-Windows OS is
retried exactly once through `SudoExec`, whose result is what is then
reported, while a succeeding command is never retried. -/
theorem java_delete_noop_and_certutil_retry :
    (∀ (kp un cacerts sp : GoStr) (execKt : List GoStr → GoStr × Bool),
      hasSub (execKt (kp :: deleteArgs un cacerts sp)).1 "does not exist".toList = true →
      uninstallJava kp un cacerts sp execKt = (false, none)) ∧
    (∀ (goos : GoStr) (first retry : GoStr × Bool),
      first.2 = false → hasSub first.1 "SEC_ERROR_READ_ONLY".toList = true →
      goos ≠ "windows".toList →
      execCertutil goos first retry = (retry, true)) ∧
    (∀ (goos : GoStr) (first retry : GoStr × Bool),
      first.2 = true → execCertutil goos first retry = (first, false)) := by
  refine ⟨?_, ?_, ?_⟩
  · intro kp un cacerts sp execKt h
    unfold uninstallJava
    rw [if_pos h]
  · intro goos first retry h1 h2 h3
    have hcond : (!first.2 && hasSub first.1 "SEC_ERROR_READ_ONLY".toList
        && (goos != "windows".toList)) = true := by
      rw [h1, h2]
      simp [bne_iff_ne]
      exact h3
    unfold execCertutil
    rw [if_pos hcond]
  · intro goos first retry h1
    have hcond : (!first.2 && hasSub first.1 "SEC_ERROR_READ_ONLY".toList
        && (goos != "windows".toList)) = false := by
      rw [h1]
      simp
    unfold execCertutil
    rw [if_neg (by rw [hcond]; exact Bool.false_ne_true)]

/-- C4 (witness): the no-op delete at a concrete output containing "does
not exist", and the read-only retry at a concrete failing first run. -/
theorem java_delete_noop_and_certutil_retry_witness :
    (uninstallJava "keytool".toList (caUniqueName "1".toList) "cacerts".toList
      "changeit".toList (fun _ => ("alias does not exist anywhere".toList, false)) =
      (false, none)) ∧
    (execCertutil "linux".toList ("x SEC_ERROR_READ_ONLY y".toList, false)
      ("ok".toList, true) = (("ok".toList, true), true)) ∧
    (execCertutil "linux".toList ("fine".toList, true) ("ok".toList, true) =
      (("fine".toList, true), false)) := by
  refine ⟨?_, ?_, ?_⟩
  · exact java_delete_noop_and_certutil_retry.1 "keytool".toList
      (caUniqueName "1".toList) "cacerts".toList "changeit".toList
      (fun _ => ("alias does not exist anywhere".toList, false)) (by decide)
  · exact java_delete_noop_and_certutil_retry.2.1 "linux".toList
      ("x SEC_ERROR_READ_ONLY y".toList, false) ("ok".toList, true) rfl
      (by decide) (by decide)
  · exact java_delete_noop_and_certutil_retry.2.2 "linux".toList
      ("fine".toList, true) ("ok".toList, true) rfl

/-- C9 (confirmed): when keytool was not discovered, `CheckJava` returns
false with a nil error and executes no external command; in particular its
result carries no error at all, unlike the keytool-missing warning that
the install and uninstall operations surface (modelled from the spec as
`javaToolMissingWarning`). -/
theorem checkJava_missing_tool_silent (kp cacerts sp : GoStr)
    (d1 d256 : List GoByte) (exec1 : List GoStr → GoStr × Bool) :
    checkJava false kp cacerts sp d1 d256 exec1 = ⟨false, none, []⟩ ∧
    (checkJava false kp cacerts sp d1 d256 exec1).err = none ∧
    javaToolMissingWarning "install".toList ≠
      (checkJava false kp cacerts sp d1 d256 exec1).err ∧
    javaToolMissingWarning "uninstall".toList ≠
      (checkJava false kp cacerts sp d1 d256 exec1).err := by
  refine ⟨rfl, rfl, ?_, ?_⟩ <;> simp [javaToolMissingWarning, checkJava]

end ClaimsJava

section ClaimsPlatformSudoNames

/-- C6 (confirmed): on the Linux CA-directory strategy, when none of the
four known system CA-anchor directories exists, `InstallPlatform` returns
`(false, nil)` — not installed, no fatal error — its only effects are the
two log lines of the unsupported-distro warning, the second of which names
the manual install path `CAROOT/<RootName>`, and no command (privileged
write or refresh) is attempted. -/
theorem installPlatform_unsupported_distro (env : LinuxEnv)
    (caroot rootName un : GoStr) (readCert : Option GoStr)
    (runSudo : List GoStr → GoStr × Bool)
    (h1 : env.pathExists "/etc/pki/ca-trust/source/anchors/".toList = false)
    (h2 : env.pathExists "/usr/local/share/ca-certificates/".toList = false)
    (h3 : env.pathExists "/etc/ca-certificates/trust-source/anchors/".toList = false)
    (h4 : env.pathExists "/usr/share/pki/trust/anchors".toList = false) :
    installPlatformLinux env caroot rootName un readCert runSudo =
      { ok := false, fatal := none,
        effects :=
          [.logMsg ("Installing to the system store is not yet supported on this Linux but Firefox and/or Chrome/Chromium will still work.".toList),
           .logMsg ("You can also manually install the root certificate at \"".toList
             ++ (caroot ++ "/".toList ++ rootName) ++ "\".".toList)] } ∧
    (installPlatformLinux env caroot rootName un readCert runSudo).effects.all
      isLogEffect = true ∧
    hasSub ("You can also manually install the root certificate at \"".toList
      ++ (caroot ++ "/".toList ++ rootName) ++ "\".".toList)
      (caroot ++ "/".toList ++ rootName) = true := by
  have hinit : initPlatform env = none := by
    unfold initPlatform
    rw [if_neg (by rw [h1]; exact Bool.false_ne_true),
      if_neg (by rw [h2]; exact Bool.false_ne_true),
      if_neg (by rw [h3]; exact Bool.false_ne_true),
      if_neg (by rw [h4]; exact Bool.false_ne_true)]
  have heq : installPlatformLinux env caroot rootName un readCert runSudo =
      { ok := false, fatal := none,
        effects :=
          [.logMsg ("Installing to the system store is not yet supported on this Linux but Firefox and/or Chrome/Chromium will still work.".toList),
           .logMsg ("You can also manually install the root certificate at \"".toList
             ++ (caroot ++ "/".toList ++ rootName) ++ "\".".toList)] } := by
    unfold installPlatformLinux
    rw [hinit]
  refine ⟨heq, ?_, ?_⟩
  · rw [heq]
    rfl
  · exact hasSub_parts
      "You can also manually install the root certificate at \"".toList
      (caroot ++ "/".toList ++ rootName) "\".".toList

/-- C6 (witness): the unsupported-distro degradation at a concrete
environment with no anchor directory. -/
theorem installPlatform_unsupported_distro_witness :
    installPlatformLinux linuxEnvNone "/root/.local/share/mkcert".toList
      "rootCA.pem".toList (caUniqueName "1".toList) none (fun _ => ([], true)) =
      { ok := false, fatal := none,
        effects :=
          [.logMsg ("Installing to the system store is not yet supported on this Linux but Firefox and/or Chrome/Chromium will still work.".toList),
           .logMsg ("You can also manually install the root certificate at \"".toList
             ++ ("/root/.local/share/mkcert".toList ++ "/".toList ++ "rootCA.pem".toList)
             ++ "\".".toList)] } :=
  (installPlatform_unsupported_distro linuxEnvNone
    "/root/.local/share/mkcert".toList "rootCA.pem".toList
    (caUniqueName "1".toList) none (fun _ => ([], true))
    rfl rfl rfl rfl).1

/-- C7 (confirmed): `SudoExec` is a three-way case split.  As root it is
exactly `Exec` of the given command.  Otherwise, without sudo, it still
runs the command through `Exec`, attaches the sudo-missing warning to the
result only when the one-time guard has not yet fired, and sets the guard.
Otherwise it executes the sudo-wrapped command, whose argv appends the
original argv to `sudo --prompt=Sudo password: --` and whose environment,
working directory and standard input are the original command's,
unchanged. -/
theorem sudoExec_three_way (fs : SudoFS) (warned : Bool) (cmd : GoCmd) :
    (fs.isRoot = true →
      sudoExec fs warned cmd =
        { out := fs.execOut cmd, err := (fs.execErr cmd).map .cmdFailed,
          ran := cmd, warnedAfter := warned }) ∧
    (fs.isRoot = false → fs.hasSudo = false →
      (sudoExec fs warned cmd).ran = cmd ∧
      (sudoExec fs warned cmd).out = fs.execOut cmd ∧
      ((sudoExec fs warned cmd).err =
        if warned then (fs.execErr cmd).map .cmdFailed
        else some (.noSudoWarning (fs.execErr cmd))) ∧
      (sudoExec fs warned cmd).warnedAfter = true) ∧
    (fs.isRoot = false → fs.hasSudo = true →
      (sudoExec fs warned cmd).ran.argv =
        fs.lookPath "sudo".toList :: "--prompt=Sudo password:".toList
          :: "--".toList :: cmd.argv ∧
      (sudoExec fs warned cmd).ran.env = cmd.env ∧
      (sudoExec fs warned cmd).ran.dir = cmd.dir ∧
      (sudoExec fs warned cmd).ran.stdin = cmd.stdin ∧
      (sudoExec fs warned cmd).warnedAfter = warned) := by
  refine ⟨?_, ?_, ?_⟩
  · intro hr
    unfold sudoExec
    rw [if_pos hr]
  · intro hr hs
    unfold sudoExec
    rw [if_neg (by rw [hr]; exact Bool.false_ne_true),
      if_neg (by rw [hs]; exact Bool.false_ne_true)]
    exact ⟨rfl, rfl, rfl, rfl⟩
  · intro hr hs
    unfold sudoExec
    rw [if_neg (by rw [hr]; exact Bool.false_ne_true), if_pos hs]
    exact ⟨rfl, rfl, rfl, rfl, rfl⟩

/-- C7 (witness): the three branches at concrete ports and a concrete
command carrying an environment, directory and standard input. -/
theorem sudoExec_three_way_witness :
    (sudoExec fsRoot false cmdTee =
      { out := "out".toList, err := none, ran := cmdTee, warnedAfter := false }) ∧
    ((sudoExec fsNoSudo false cmdTee).err = some (.noSudoWarning none) ∧
      (sudoExec fsNoSudo false cmdTee).ran = cmdTee ∧
      (sudoExec fsNoSudo false cmdTee).warnedAfter = true) ∧
    ((sudoExec fsNoSudo true cmdTee).err = none) ∧
    ((sudoExec fsWithSudo false cmdTee).ran.argv =
      "/usr/bin/sudo".toList :: "--prompt=Sudo password:".toList
        :: "--".toList :: cmdTee.argv ∧
      (sudoExec fsWithSudo false cmdTee).ran.env = cmdTee.env ∧
      (sudoExec fsWithSudo false cmdTee).ran.stdin = cmdTee.stdin) := by
  refine ⟨?_, ?_, ?_, ?_⟩
  · exact (sudoExec_three_way fsRoot false cmdTee).1 rfl
  · obtain ⟨hran, _, herr, hwa⟩ := (sudoExec_three_way fsNoSudo false cmdTee).2.1 rfl rfl
    exact ⟨herr, hran, hwa⟩
  · obtain ⟨_, _, herr, _⟩ := (sudoExec_three_way fsNoSudo true cmdTee).2.1 rfl rfl
    exact herr
  · obtain ⟨hargv, henv, _, hstdin, _⟩ :=
      (sudoExec_three_way fsWithSudo false cmdTee).2.2 rfl rfl
    exact ⟨hargv, henv, hstdin⟩

/-- C8 (confirmed): a requested name accepted as a literal IP, an email
equal to its own parsed address, or a URI with nonempty scheme and host,
bypasses the hostname grammar entirely; any other name is
IDNA-converted and matched against `hostnameRegexp`; a name failing all
four classifications, or failing IDNA conversion, is the fatal
invalid-name error whose message contains the rejected input verbatim —
in particular `"!"` (for which the Go library oracles behave as
`hostOracle`) is rejected with a message naming `"!"`. -/
theorem name_classification (o : NameOracle) (name scheme host puny : GoStr) :
    (o.parseIP name = true → classifyName o name = .ipName) ∧
    (o.parseIP name = false → o.parseAddr name = some name →
      classifyName o name = .emailName) ∧
    (o.parseIP name = false → o.parseAddr name ≠ some name →
      o.parseURL name = some (scheme, host) → scheme ≠ [] → host ≠ [] →
      classifyName o name = .uriName) ∧
    (o.parseIP name = false → o.parseAddr name ≠ some name →
      (∀ su, o.parseURL name = some su → su.1 = [] ∨ su.2 = []) →
      o.idnaToASCII name = some puny → hostnameRegexpMatch puny = true →
      classifyName o name = .hostName puny) ∧
    (o.parseIP name = false → o.parseAddr name ≠ some name →
      (∀ su, o.parseURL name = some su → su.1 = [] ∨ su.2 = []) →
      o.idnaToASCII name = some puny → hostnameRegexpMatch puny = false →
      classifyName o name = .invalid (invalidNameMsg name)) ∧
    (o.parseIP name = false → o.parseAddr name ≠ some name →
      (∀ su, o.parseURL name = some su → su.1 = [] ∨ su.2 = []) →
      o.idnaToASCII name = none →
      classifyName o name = .invalid (invalidNameMsg name)) ∧
    hasSub (invalidNameMsg name) name = true ∧
    classifyName hostOracle "!".toList = .invalid (invalidNameMsg "!".toList) := by
  have hurlFalse : ∀ (hurl : ∀ su, o.parseURL name = some su → su.1 = [] ∨ su.2 = []),
      (match o.parseURL name with
        | some su => decide (su.1 ≠ [] ∧ su.2 ≠ [])
        | none => false) = false := by
    intro hurl
    cases hu : o.parseURL name with
    | none => rfl
    | some su =>
      rcases hurl su hu with h | h <;>
        simp [h]
  refine ⟨?_, ?_, ?_, ?_, ?_, ?_, ?_, by decide⟩
  · intro hip
    unfold classifyName
    rw [if_pos hip]
  · intro hip hm
    unfold classifyName
    rw [if_neg (by rw [hip]; exact Bool.false_ne_true), if_pos hm]
  · intro hip hm hu hs hh
    have hcond : (match o.parseURL name with
        | some su => decide (su.1 ≠ [] ∧ su.2 ≠ [])
        | none => false) = true := by
      rw [hu]
      exact decide_eq_true ⟨hs, hh⟩
    unfold classifyName
    rw [if_neg (by rw [hip]; exact Bool.false_ne_true), if_neg hm, if_pos hcond]
  · intro hip hm hurl hid hreg
    unfold classifyName
    rw [if_neg (by rw [hip]; exact Bool.false_ne_true), if_neg hm,
      if_neg (by rw [hurlFalse hurl]; exact Bool.false_ne_true), hid]
    simp only [hreg, if_true]
  · intro hip hm hurl hid hreg
    unfold classifyName
    rw [if_neg (by rw [hip]; exact Bool.false_ne_true), if_neg hm,
      if_neg (by rw [hurlFalse hurl]; exact Bool.false_ne_true), hid]
    simp only [hreg, Bool.false_eq_true, if_false]
  · intro hip hm hurl hid
    unfold classifyName
    rw [if_neg (by rw [hip]; exact Bool.false_ne_true), if_neg hm,
      if_neg (by rw [hurlFalse hurl]; exact Bool.false_ne_true), hid]
  · exact hasSub_parts "ERROR: \"".toList name
      "\" is not a valid hostname, IP, URL or email".toList

/-- C8 (witness): one accepted instance of each classification — an IP
that fails the hostname grammar, an email, a URI, a hostname — and the
rejected `"!"`. -/
theorem name_classification_witness :
    (classifyName ipOracle "::1".toList = .ipName ∧
      hostnameRegexpMatch "::1".toList = false) ∧
    classifyName emailOracle "a@b.example".toList = .emailName ∧
    classifyName uriOracle "https://example.com".toList = .uriName ∧
    classifyName hostOracle "example.org".toList =
      .hostName "example.org".toList ∧
    classifyName hostOracle "!".toList = .invalid (invalidNameMsg "!".toList) := by
  refine ⟨⟨?_, by decide⟩, ?_, ?_, ?_, ?_⟩
  · exact (name_classification ipOracle "::1".toList [] [] []).1 rfl
  · exact (name_classification emailOracle "a@b.example".toList [] [] []).2.1
      rfl rfl
  · exact (name_classification uriOracle "https://example.com".toList
      "https".toList "example.com".toList []).2.2.1 rfl (by decide) rfl
      (by decide) (by decide)
  · exact (name_classification hostOracle "example.org".toList [] []
      "example.org".toList).2.2.2.1 rfl (by decide) (by decide) rfl (by decide)
  · exact (name_classification hostOracle "!".toList [] [] "!".toList).2.2.2.2.1
      rfl (by decide) (by decide) rfl (by decide)

end ClaimsPlatformSudoNames

section UninstallLemmas

theorem removedPaths_append (a b : List Effect) :
    removedPaths (a ++ b) = removedPaths a ++ removedPaths b :=
  List.filterMap_append a b rmTarget

theorem removedPaths_nssLoop (env : NSSEnv) (cp un goos : GoStr)
    (verifyOk : GoStr → Bool) (delFirst delRetry : GoStr → GoStr × Bool) :
    ∀ ps, removedPaths
      (uninstallNSSLoop env cp un goos verifyOk delFirst delRetry ps) = [] := by
  intro ps
  induction ps with
  | nil => rfl
  | cons p ps ih =>
    unfold uninstallNSSLoop
    cases hpa : profileAddr env p with
    | none => exact ih
    | some addr =>
      dsimp only
      have h1 : rmTarget (Effect.runCmd (certutilVerifyArgs cp un addr)) = none := rfl
      have h2 : rmTarget (Effect.runCmd (certutilDeleteArgs cp un addr)) = none := rfl
      have h3 : rmTarget (Effect.sudoCmd (certutilDeleteArgs cp un addr)) = none := rfl
      have hsudo : removedPaths
          (if (execCertutil goos (delFirst addr) (delRetry addr)).2 then
            [Effect.sudoCmd (certutilDeleteArgs cp un addr)]
          else []) = [] := by
        by_cases hd2 : (execCertutil goos (delFirst addr) (delRetry addr)).2 = true
        · rw [if_pos hd2]
          simp only [removedPaths, List.filterMap_cons, h3, List.filterMap_nil]
        · rw [if_neg hd2]
          rfl
      by_cases hv : verifyOk addr = true
      · rw [if_pos hv]
        by_cases hd1 : (execCertutil goos (delFirst addr) (delRetry addr)).1.2 = true
        · rw [if_pos hd1]
          simp only [removedPaths, List.filterMap_cons, List.filterMap_append,
            h1, h2] at ih hsudo ⊢
          rw [hsudo, ih]
          rfl
        · rw [if_neg hd1]
          simp only [removedPaths, List.filterMap_cons, h1, h2] at hsudo ⊢
          exact hsudo
      · rw [if_neg hv]
        simp only [removedPaths, List.filterMap_cons, h1] at ih ⊢
        exact ih

theorem removedPaths_nssUninstall (hasCertutil : Bool) (env : NSSEnv)
    (cp un goos : GoStr) (verifyOk : GoStr → Bool)
    (delFirst delRetry : GoStr → GoStr × Bool) :
    removedPaths (uninstallNSSEffects hasCertutil env cp un goos verifyOk
      delFirst delRetry) = [] := by
  unfold uninstallNSSEffects
  by_cases h : hasCertutil
  · rw [if_pos h]
    exact removedPaths_nssLoop env cp un goos verifyOk delFirst delRetry
      (nssCandidates env)
  · rw [if_neg h]
    rfl

theorem removedPaths_javaUninstall (kp un cacerts sp goos : GoStr)
    (first : GoStr × Bool) :
    removedPaths (uninstallJavaEffects kp un cacerts sp goos first) = [] := by
  unfold uninstallJavaEffects
  have h1 : rmTarget (Effect.runCmd (kp :: deleteArgs un cacerts sp)) = none := rfl
  have h2 : rmTarget (Effect.sudoCmd (kp :: deleteArgs un cacerts sp)) = none := rfl
  by_cases h : (!first.2 && hasSub first.1 "java.io.FileNotFoundException".toList
      && (goos != "windows".toList)) = true
  · rw [if_pos h]
    simp only [removedPaths, List.filterMap_cons, h1, h2, List.filterMap_nil]
  · rw [if_neg h]
    simp only [removedPaths, List.filterMap_cons, h1, List.filterMap_nil]

theorem removedPaths_darwinUninstall (caroot fileName : GoStr) :
    removedPaths (uninstallPlatformDarwinEffects caroot fileName) = [] := rfl

theorem removedPaths_platformLinux (env : LinuxEnv) (un : GoStr)
    (rm1Ok legacyExists rmLegacyOk : Bool) (st : SystemTrust)
    (hst : initPlatform env = some st) :
    ∀ q ∈ removedPaths (uninstallPlatformLinuxEffects env un rm1Ok
      legacyExists rmLegacyOk),
      q = systemTrustFilename st un ∨
        q = st.dir ++ "mkcert-rootCA".toList ++ st.ext := by
  have hcmd : rmTarget (Effect.sudoCmd st.cmd) = none := by
    have h := (initPlatform_ext_facts env st hst).2.2
    simpa [rmTarget] using h
  have h1 : rmTarget (Effect.sudoCmd ["rm".toList, "-f".toList,
      systemTrustFilename st un]) = some (systemTrustFilename st un) := by
    simp [rmTarget, rmArgvTarget]
  have h2 : rmTarget (Effect.sudoCmd ["rm".toList, "-f".toList,
      st.dir ++ "mkcert-rootCA".toList ++ st.ext]) =
      some (st.dir ++ "mkcert-rootCA".toList ++ st.ext) := by
    simp [rmTarget, rmArgvTarget]
  intro q hq
  unfold uninstallPlatformLinuxEffects at hq
  rw [hst] at hq
  by_cases hr : rm1Ok
  · by_cases hl : legacyExists
    · by_cases hrl : rmLegacyOk
      · simp only [hr, hl, hrl, Bool.not_true, Bool.and_false, if_true,
          Bool.false_eq_true, if_false, removedPaths, List.filterMap_cons,
          List.filterMap_append, h1, h2, hcmd, List.filterMap_nil] at hq
        simp only [List.mem_append, List.mem_cons, List.not_mem_nil,
          or_false] at hq
        tauto
      · simp only [hr, hl, hrl, Bool.not_false, Bool.and_true, if_true,
          removedPaths, List.filterMap_cons, List.filterMap_append, h1, h2,
          hcmd, List.filterMap_nil] at hq
        simp only [List.mem_append, List.mem_cons, List.not_mem_nil,
          or_false] at hq
        tauto
    · simp only [hr, hl, Bool.false_and, Bool.false_eq_true, if_false,
        if_true, removedPaths, List.filterMap_cons, List.filterMap_append,
        h1, h2, hcmd, List.filterMap_nil] at hq
      simp only [List.mem_append, List.mem_cons, List.not_mem_nil,
        or_false] at hq
      tauto
  · simp only [hr, Bool.false_eq_true, if_false, removedPaths,
      List.filterMap_cons, h1, List.filterMap_nil] at hq
    simp only [List.mem_cons, List.not_mem_nil, or_false] at hq
    exact Or.inl hq

theorem removedPaths_uninstall (cfg : UninstallCfg) (un : GoStr) :
    ∀ q ∈ removedPaths (uninstallEffects cfg un),
      ∃ st, initPlatform cfg.linuxEnv = some st ∧
        (q = systemTrustFilename st un ∨
          q = st.dir ++ "mkcert-rootCA".toList ++ st.ext) := by
  intro q hq
  unfold uninstallEffects at hq
  rw [removedPaths_append, removedPaths_append] at hq
  have hA : removedPaths (if cfg.nssEnabled && cfg.nssAvailable then
      uninstallNSSEffects cfg.hasCertutil cfg.nssEnv cfg.certutilPath un
        cfg.goos cfg.verifyOk cfg.delFirst cfg.delRetry
    else []) = [] := by
    split
    · exact removedPaths_nssUninstall cfg.hasCertutil cfg.nssEnv
        cfg.certutilPath un cfg.goos cfg.verifyOk cfg.delFirst cfg.delRetry
    · rfl
  have hB : removedPaths (if cfg.javaEnabled && cfg.hasJava then
      uninstallJavaEffects cfg.keytoolPath un cfg.cacertsPath cfg.storePass
        cfg.goos cfg.javaFirst
    else []) = [] := by
    split
    · exact removedPaths_javaUninstall cfg.keytoolPath un cfg.cacertsPath
        cfg.storePass cfg.goos cfg.javaFirst
    · rfl
  rw [hA, hB] at hq
  simp only [List.nil_append, List.mem_append] at hq
  by_cases hsys : cfg.systemEnabled = true
  · rw [if_pos hsys] at hq
    by_cases hgoos : cfg.goos = "darwin".toList
    · rw [if_pos hgoos, removedPaths_darwinUninstall] at hq
      exact absurd hq (List.not_mem_nil q)
    · rw [if_neg hgoos] at hq
      cases hip : initPlatform cfg.linuxEnv with
      | none =>
        have hnil : uninstallPlatformLinuxEffects cfg.linuxEnv un cfg.rm1Ok
            cfg.legacyExists cfg.rmLegacyOk = [] := by
          unfold uninstallPlatformLinuxEffects
          rw [hip]
        rw [hnil] at hq
        exact absurd hq (List.not_mem_nil q)
      | some st =>
        exact ⟨st, rfl, removedPaths_platformLinux cfg.linuxEnv un cfg.rm1Ok
          cfg.legacyExists cfg.rmLegacyOk st hip q hq⟩
  · rw [if_neg hsys] at hq
    exact absurd hq (List.not_mem_nil q)

theorem systemTrustFilename_ne (st : SystemTrust) (serial caroot tail : GoStr)
    (hser : ('/' : Char) ∉ serial) (hext : ('/' : Char) ∉ st.ext)
    (hlen4 : st.ext.length = 4) (htm : ('/' : Char) ∈ tail)
    (htl : tail.length ≤ 15) :
    systemTrustFilename st (caUniqueName serial) ≠ caroot ++ tail := by
  unfold systemTrustFilename
  rw [List.append_assoc]
  apply append_ne_append_of_no_slash
  · intro hmem
    rcases List.mem_append.mp hmem with hmem | hmem
    · refine sanitizeUnique_no_slash (caUniqueName serial) ?_ hmem
      intro hm2
      unfold caUniqueName at hm2
      rcases List.mem_append.mp hm2 with h | h
      · exact absurd h (by decide)
      · exact hser h
    · exact hext hmem
  · exact htm
  · have h1 : (sanitizeUnique (caUniqueName serial)).length =
        (caUniqueName serial).length := List.length_map _ _
    have h2 : (caUniqueName serial).length = 22 + serial.length := by
      unfold caUniqueName
      rw [List.length_append]
      have h22 : ("mkcert development CA ".toList).length = 22 := by decide
      rw [h22]
    rw [List.length_append, h1, h2, hlen4]
    omega

theorem legacyFilename_ne (st : SystemTrust) (caroot tail : GoStr)
    (hext : ('/' : Char) ∉ st.ext) (hlen4 : st.ext.length = 4)
    (htm : ('/' : Char) ∈ tail) (htl : tail.length ≤ 15) :
    st.dir ++ "mkcert-rootCA".toList ++ st.ext ≠ caroot ++ tail := by
  rw [List.append_assoc]
  apply append_ne_append_of_no_slash
  · intro hmem
    rcases List.mem_append.mp hmem with h | h
    · exact absurd h (by decide)
    · exact hext h
  · exact htm
  · have h13 : ("mkcert-rootCA".toList).length = 13 := by decide
    rw [List.length_append, h13, hlen4]
    omega

end UninstallLemmas

section ClaimUninstall

/-- C5 (confirmed): for every uninstall run — any combination of enabled
backends on Linux or Darwin, any discovery state, any command outcomes —
no `rm -f` issued by `mkcert.uninstall` targets the root CA certificate
file `CAROOT/rootCA.pem` or the key file `CAROOT/rootCA-key.pem`: the only
paths removed are the system-anchor file (whose basename is the sanitized
`mkcert development CA <serial>` name) and the legacy `mkcert-rootCA`
anchor, both of which differ from the CA file paths whenever the serial
number string contains no path separator.  Uninstall removes trust
entries only, never CA key material. -/
theorem uninstall_preserves_ca_files (cfg : UninstallCfg) (serial : GoStr)
    (hser : ('/' : Char) ∉ serial) :
    (cfg.caroot ++ "/rootCA.pem".toList) ∉
      removedPaths (uninstallEffects cfg (caUniqueName serial)) ∧
    (cfg.caroot ++ "/rootCA-key.pem".toList) ∉
      removedPaths (uninstallEffects cfg (caUniqueName serial)) := by
  constructor
  · intro hmem
    obtain ⟨st, hip, hq⟩ := removedPaths_uninstall cfg (caUniqueName serial) _ hmem
    obtain ⟨hext, hlen4, _⟩ := initPlatform_ext_facts cfg.linuxEnv st hip
    rcases hq with hq | hq
    · exact systemTrustFilename_ne st serial cfg.caroot "/rootCA.pem".toList
        hser hext hlen4 (by decide) (by decide) hq.symm
    · exact legacyFilename_ne st cfg.caroot "/rootCA.pem".toList
        hext hlen4 (by decide) (by decide) hq.symm
  · intro hmem
    obtain ⟨st, hip, hq⟩ := removedPaths_uninstall cfg (caUniqueName serial) _ hmem
    obtain ⟨hext, hlen4, _⟩ := initPlatform_ext_facts cfg.linuxEnv st hip
    rcases hq with hq | hq
    · exact systemTrustFilename_ne st serial cfg.caroot "/rootCA-key.pem".toList
        hser hext hlen4 (by decide) (by decide) hq.symm
    · exact legacyFilename_ne st cfg.caroot "/rootCA-key.pem".toList
        hext hlen4 (by decide) (by decide) hq.symm

/-- C5 (witness): the frame property at a fully enabled Linux
configuration with serial number 123. -/
theorem uninstall_preserves_ca_files_witness :
    (('/' : Char) ∉ "123".toList) ∧
    (cfgW.caroot ++ "/rootCA.pem".toList) ∉
      removedPaths (uninstallEffects cfgW (caUniqueName "123".toList)) ∧
    (cfgW.caroot ++ "/rootCA-key.pem".toList) ∉
      removedPaths (uninstallEffects cfgW (caUniqueName "123".toList)) :=
  ⟨by decide,
    (uninstall_preserves_ca_files cfgW "123".toList (by decide)).1,
    (uninstall_preserves_ca_files cfgW "123".toList (by decide)).2⟩

end ClaimUninstall
